import Mathlib

/-!
# Verification of the xmphash streaming-hasher core

Shallow embedding of the hashing core of the `xmphash` repository
(`include/xmphash/hasher.hpp` and its implementation file): the
`Hasher` consume/finalize/reset state machine, the table-driven CRC32
algorithm, the OpenSSL EVP adapter (`EvpHasher`, `EvpMdCtxWrapper`),
and the hex string encode/decode helpers (`bytesToStr`, `strToBytes`).

Conventions of the embedding:
* machine `uint32_t` values are `Nat`s (all operations used — xor,
  right shift, masking with `&&& 0xff` — keep values below `2^32`, which
  we prove where it matters);
* a `const void* data` + `count` byte range is an `Option (List Nat)`:
  `none` models a null pointer, `some bs` a non-null buffer holding
  `bs.length` bytes;
* an output buffer + its capacity is an `Option (List Nat)` whose list
  length is the capacity; writing into the buffer replaces a front
  segment of the list;
* the opaque OpenSSL engine is modelled abstractly: an `EVP_MD_CTX*`
  is an `Option γ` (`none` = null pointer, `some c` = allocated
  context with engine-internal state `c`), and the EVP entry points
  are parameters recording only the behaviour the wrapper code relies
  on (documented at each definition).
-/

namespace Xmph

/-! ## CRC32 lookup table (`Crc32Lut` in hasher.hpp)

The constructor runs, for each `i < 256`, eight rounds of
`pre = (pre & 1) ? poly ^ (pre >> 1) : pre >> 1` starting from `i`. -/

/-- The CRC-32 polynomial constant `0xedb88320u` from `Crc32Lut`. -/
def crc32Poly : Nat := 0xedb88320

/-- One round of the table-building loop body in the `Crc32Lut` constructor:
`if (pre & 1) pre = poly ^ (pre >> 1); else pre >>= 1;`. -/
def crc32LutRound (pre : Nat) : Nat :=
  if pre &&& 1 = 1 then crc32Poly ^^^ (pre >>> 1) else pre >>> 1

/-- Entry `i` of the table: eight rounds starting from `i`
(the inner `for (int j = 0; j < 8; j++)` loop). -/
def crc32LutEntry (i : Nat) : Nat := crc32LutRound^[8] i

/-- The 256-entry table `crc32Lut` (`data[i] = pre` for `i` in `0..255`). -/
def crc32Lut : List Nat := (List.range 256).map crc32LutEntry

/-- `Crc32Lut::operator[]`: read table entry `idx`. -/
def crc32LutGet (idx : Nat) : Nat := crc32Lut.getD idx 0

/-! ## Crc32Hasher algorithm pieces -/

/-- `Crc32Hasher::base = 0xffffffffu`, the register's initial value. -/
def crc32Base : Nat := 0xffffffff

/-- The per-byte register update in `Crc32Hasher::consumeImpl`:
`partial_next = crc32Lut[(partial_next ^ ucdata[i]) & 0xffu] ^ (partial_next >> 8)`. -/
def crc32Update (r b : Nat) : Nat :=
  crc32LutGet ((r ^^^ b) &&& 0xff) ^^^ (r >>> 8)

/-- `Crc32Hasher::consumeImpl`: fold the update over the input bytes
(the `for (std::size_t i = 0; i < count; i++)` loop). -/
def crc32ConsumeImpl (r : Nat) (bs : List Nat) : Nat :=
  bs.foldl crc32Update r

/-- `Crc32Hasher::finalizeImpl`: the four bytes written into the caller's
buffer, big-endian, each masked with `0xffu`; `final = partial_ ^ base`. -/
def crc32FinalBytes (r : Nat) : List Nat :=
  [((r ^^^ crc32Base) >>> 24) &&& 0xff,
   ((r ^^^ crc32Base) >>> 16) &&& 0xff,
   ((r ^^^ crc32Base) >>> 8) &&& 0xff,
   (r ^^^ crc32Base) &&& 0xff]

/-! ## The `Hasher` base class

`Hasher` keeps one private flag `isFinalized_` and dispatches to the
virtual `...Impl` methods.  We embed the virtual interface as a record
of implementation functions over an algorithm-specific state `σ`, and
the base class's concrete methods as functions over `HasherState σ`.
Each `...Impl` returns its updated state together with the `bool` the
C++ method returns; `finalizeImpl` additionally returns the bytes it
writes into the caller's buffer. -/

/-- The virtual interface of `Hasher` (`consumeImpl`, `finalizeImpl`,
`resetImpl`, `getDigestSizeImpl`) over algorithm state `σ`. -/
structure HasherImpl (σ : Type) where
  consumeImpl : σ → List Nat → σ × Bool
  finalizeImpl : σ → σ × List Nat × Bool
  resetImpl : σ → σ × Bool
  digestSizeImpl : σ → Nat

/-- The state of a `Hasher` object: the private `isFinalized_` flag
plus the derived class's fields. -/
structure HasherState (σ : Type) where
  isFinalized : Bool
  impl : σ

/-- The `Hasher()` constructor: `isFinalized_(false)`. -/
def mkHasher {σ : Type} (s : σ) : HasherState σ := ⟨false, s⟩

/-- `Hasher::consume(data, count)`:
`if (!isFinalized_ && data != nullptr) { consumeImpl(data, count); return true; }
else return false;` — note the result of `consumeImpl` is discarded. -/
def consume {σ : Type} (M : HasherImpl σ) (h : HasherState σ)
    (data : Option (List Nat)) : HasherState σ × Bool :=
  match data with
  | some bs =>
    if h.isFinalized then (h, false)
    else (⟨h.isFinalized, (M.consumeImpl h.impl bs).1⟩, true)
  | none => (h, false)

/-- Writing `w` into the front of a buffer of contents `b`
(what a `...finalizeImpl(buf)` call does to the pointed-to memory). -/
def writeBytes (w b : List Nat) : List Nat := w ++ b.drop w.length

/-- `Hasher::finalize(buf, count)`: guarded by
`!isFinalized_ && buf != nullptr && count >= getDigestSize()`; on a
passing guard runs `finalizeImpl(buf)` and sets `isFinalized_ = true`
exactly when that returns `true`. -/
def finalize {σ : Type} (M : HasherImpl σ) (h : HasherState σ)
    (buf : Option (List Nat)) : HasherState σ × Option (List Nat) × Bool :=
  match buf with
  | some b =>
    if h.isFinalized = false ∧ M.digestSizeImpl h.impl ≤ b.length then
      let r := M.finalizeImpl h.impl
      if r.2.2 then (⟨true, r.1⟩, some (writeBytes r.2.1 b), true)
      else (⟨h.isFinalized, r.1⟩, some (writeBytes r.2.1 b), false)
    else (h, some b, false)
  | none => (h, none, false)

/-- `Hasher::getDigestSize()`: dispatches to `getDigestSizeImpl()`. -/
def getDigestSize {σ : Type} (M : HasherImpl σ) (h : HasherState σ) : Nat :=
  M.digestSizeImpl h.impl

/-- `Hasher::reset()`: `return resetImpl();` — the `isFinalized_` flag is
left untouched (the source never clears it here). -/
def reset {σ : Type} (M : HasherImpl σ) (h : HasherState σ) :
    HasherState σ × Bool :=
  (⟨h.isFinalized, (M.resetImpl h.impl).1⟩, (M.resetImpl h.impl).2)

/-! ## The concrete `Crc32Hasher` instantiation -/

/-- The `Crc32Hasher` override set: state is the `partial_` register.
`consumeImpl` folds the table update and returns `true`; `finalizeImpl`
writes the four big-endian bytes and returns `true`; `resetImpl` sets
the register to `base`; `getDigestSizeImpl` returns `4`. -/
def crc32HasherImpl : HasherImpl Nat where
  consumeImpl := fun r bs => (crc32ConsumeImpl r bs, true)
  finalizeImpl := fun r => (r, crc32FinalBytes r, true)
  resetImpl := fun _ => (crc32Base, true)
  digestSizeImpl := fun _ => 4

/-- The `Crc32Hasher()` constructor: `Hasher()` then `partial_(base)`. -/
def freshCrc32 : HasherState Nat := mkHasher crc32Base

/-- Digest of `input` through the public interface: one `consume` of the
whole input on a fresh hasher, then `finalize` into a 4-byte buffer;
returns the buffer contents afterwards. -/
def crc32Digest (input : List Nat) : Option (List Nat) :=
  (finalize crc32HasherImpl
    (consume crc32HasherImpl freshCrc32 (some input)).1
    (some [0, 0, 0, 0])).2.1

/-- Feeding a list of chunks to a CRC32 hasher by repeated `consume` calls. -/
def feedChunks (h : HasherState Nat) (chunks : List (List Nat)) :
    HasherState Nat :=
  chunks.foldl (fun s c => (consume crc32HasherImpl s (some c)).1) h

/-! ## The OpenSSL EVP engine, modelled abstractly

The repository drives the engine only through `EVP_MD_CTX_new`,
`EVP_MD_CTX_free`, `EVP_MD_CTX_copy_ex`, `EVP_get_digestbyname`,
`EVP_DigestInit_ex`, `EVP_DigestUpdate`, `EVP_DigestFinal_ex` and
`EVP_MD_size`.  We model an `EVP_MD_CTX*` as `Option γ` with `γ` the
engine's opaque context state, and record of each entry point only the
behaviour documented by OpenSSL that the wrapper code relies on:
`EVP_MD_CTX_copy_ex(out, in)` duplicates the accumulated state of `in`
into `out` and reports success, and cannot succeed when either pointer
is null (with a null destination there is no context to copy into). -/

/-- The copy behaviour of the engine: `copyOk c` says whether
`EVP_MD_CTX_copy_ex` succeeds on a valid source context in state `c`
(it can fail, e.g. on allocation failure, which is why the wrapper
checks it). -/
structure EvpEngine (γ : Type) where
  fresh : γ
  copyOk : γ → Bool

/-- `EVP_MD_CTX_new()`: allocates a fresh context. -/
def evpMdCtxNew {γ : Type} (E : EvpEngine γ) : Option γ := some E.fresh

/-- `EVP_MD_CTX_copy_ex(out, in)`: on success the destination carries the
source's accumulated state; fails when either pointer is null or the
engine's copy fails.  Returns the destination's new state and the
success flag. -/
def evpMdCtxCopyEx {γ : Type} (E : EvpEngine γ) (dst src : Option γ) :
    Option γ × Bool :=
  match dst, src with
  | some _, some s => if E.copyOk s then (some s, true) else (dst, false)
  | d, _ => (d, false)

/-- `EvpMdCtxWrapper(const EvpMdCtxWrapper&)`: member-init
`context_(::EVP_MD_CTX_new())`, then `EVP_MD_CTX_copy_ex(context_,
other.get())`; throws `std::runtime_error` when the copy fails.
The result is the new wrapper's `context_`. -/
def evpWrapperCopyConstruct {γ : Type} (E : EvpEngine γ) (other : Option γ) :
    Except String (Option γ) :=
  let ctx := evpMdCtxNew E
  let r := evpMdCtxCopyEx E ctx other
  if r.2 then .ok r.1 else .error "EVP_MD_CTX_copy_ex failed"

/-- `EvpMdCtxWrapper::operator=(const EvpMdCtxWrapper&)`:
`EVP_MD_CTX_free(this->context_); this->context_ = nullptr;` and then
`EVP_MD_CTX_copy_ex(this->context_, other.get())` — the copy destination
is the just-nulled `this->context_`; throws when the copy fails. -/
def evpWrapperCopyAssign {γ : Type} (E : EvpEngine γ)
    (thisCtx other : Option γ) : Except String (Option γ) :=
  let freed : Option γ := (fun _ => none) thisCtx
  let r := evpMdCtxCopyEx E freed other
  if r.2 then .ok r.1 else .error "EVP_MD_CTX_copy_ex failed"

/-! ## `EvpHasher` construction (`initContext`)

`initContext` resolves the algorithm name through
`EVP_get_digestbyname` and initializes the owned context with
`EVP_DigestInit_ex`.  The engine's registry and its per-algorithm init
behaviour are parameters. -/

/-- The engine registry surface used by `EvpHasher::initContext`:
`getDigestByName` models `EVP_get_digestbyname` (`none` = unrecognized
name, i.e. a null `EVP_MD*`), `digestInitOk md` models whether
`EVP_DigestInit_ex` succeeds for algorithm `md`, and `mdSize md` models
`EVP_MD_size(md)`. -/
structure EvpRegistry (μ : Type) where
  getDigestByName : String → Option μ
  digestInitOk : μ → Bool
  mdSize : μ → Nat

/-- The two construction-time error kinds of `EvpHasher`:
`std::invalid_argument` and `std::runtime_error`. -/
inductive EvpConstructError where
  | invalidArgument (msg : String)
  | runtimeError (msg : String)
deriving DecidableEq, Repr

/-- A successfully constructed `EvpHasher`: the stored name, the resolved
(non-null) `digest_type_`, and the `initialized` fact about its owned
context (set by the successful `EVP_DigestInit_ex`). -/
structure EvpHasher (μ : Type) where
  name : String
  digestType : μ
  ctxInitialized : Bool

/-- The `EvpHasher(name)` constructors followed by `initContext()`:
`digest_type_ = EVP_get_digestbyname(name)`; a null result throws
`std::invalid_argument("unrecognized digest name: ...")`; a failing
`EVP_DigestInit_ex` throws `std::runtime_error(...)`; otherwise the
object exists with the resolved identifier and an initialized context. -/
def mkEvpHasher {μ : Type} (R : EvpRegistry μ) (name : String) :
    Except EvpConstructError (EvpHasher μ) :=
  match R.getDigestByName name with
  | none =>
    .error (.invalidArgument ("unrecognized digest name: \"" ++ name ++ "\""))
  | some md =>
    if R.digestInitOk md then .ok ⟨name, md, true⟩
    else .error (.runtimeError
      "unable to initialize digest context (EVP_DigestInit_ex failed)")

/-! ## `EvpHasher` as a `HasherImpl`

The per-call engine behaviour (`EVP_DigestUpdate`,
`EVP_DigestFinal_ex`, re-`EVP_DigestInit_ex`) is a parameter record;
the `EvpHasher` overrides forward to it and return the engine's
booleans (`consumeImpl` returns `EVP_DigestUpdate`'s result,
`finalizeImpl` returns `EVP_DigestFinal_ex`'s result, etc.). -/

structure EvpDigestEngine (γ : Type) where
  update : γ → List Nat → γ × Bool
  final : γ → γ × List Nat × Bool
  initState : γ
  initOk : Bool
  mdSize : Nat

/-- The `EvpHasher` override set over engine `E`: each override forwards
to the corresponding engine operation through the owned context and
returns the engine's boolean. -/
def evpHasherImpl {γ : Type} (E : EvpDigestEngine γ) : HasherImpl γ where
  consumeImpl := fun c bs => E.update c bs
  finalizeImpl := fun c => E.final c
  resetImpl := fun _ => (E.initState, E.initOk)
  digestSizeImpl := fun _ => E.mdSize

/-! ## Hex string helpers (`strToBytes`, `bytesToStr`)

Bytes are `Nat`s below 256; C++ `std::string` / `std::string_view`
contents are `List Char`. -/

/-- `hexDigitValue(c)`: value of a hex digit as an `int`, `-1` when the
character is not a hex digit. -/
def hexDigitValue (c : Char) : Int :=
  if '0' ≤ c ∧ c ≤ '9' then (c.toNat : Int) - ('0'.toNat : Int)
  else if 'a' ≤ c ∧ c ≤ 'f' then (c.toNat : Int) - ('a'.toNat : Int) + 0xA
  else if 'A' ≤ c ∧ c ≤ 'F' then (c.toNat : Int) - ('A'.toNat : Int) + 0xA
  else -1

/-- The condition asserted at the top of `valueToHexDigit`:
`assert(n > 0 && n < 16)`. -/
def valueToHexDigitAssertCond (n : Nat) : Bool :=
  decide (0 < n) && decide (n < 16)

/-- `valueToHexDigit(n)`: the character computed and returned
(`'0' + n` below 10, `'a' + (n - 10)` otherwise). -/
def valueToHexDigit (n : Nat) : Char :=
  if n < 10 then Char.ofNat ('0'.toNat + n)
  else Char.ofNat ('a'.toNat + (n - 10))

/-- The loop of `strToBytes`, two characters per iteration:
`vec.push_back(h1 * 16 + h2)` unless either digit is invalid. -/
def strToBytesLoop : List Char → Option (List Nat)
  | [] => some []
  | [_] => none
  | c1 :: c2 :: rest =>
    let h1 := hexDigitValue c1
    let h2 := hexDigitValue c2
    if h1 = -1 ∨ h2 = -1 then none
    else (strToBytesLoop rest).map (fun v => (h1 * 16 + h2).toNat :: v)

/-- `strToBytes(sv)`: rejects odd-length input (`sv.length() % 2 != 0`),
then decodes pairs of hex digits; any invalid digit yields no value. -/
def strToBytes (s : List Char) : Option (List Nat) :=
  if s.length % 2 ≠ 0 then none else strToBytesLoop s

/-- The nibbles `bytesToStr` passes to `valueToHexDigit`, in call order:
`(buf[i] >> 4) & 0xFu` then `buf[i] & 0xFu` for each byte. -/
def bytesToStrNibbles (buf : List Nat) : List Nat :=
  buf.flatMap (fun b => [(b >>> 4) &&& 0xF, b &&& 0xF])

/-- `bytesToStr(buf, count)`: the returned string, two hex characters per
byte — `valueToHexDigit((buf[i] >> 4) & 0xFu)` then
`valueToHexDigit(buf[i] & 0xFu)`. -/
def bytesToStr (buf : List Nat) : List Char :=
  buf.flatMap (fun b =>
    [valueToHexDigit ((b >>> 4) &&& 0xF), valueToHexDigit (b &&& 0xF)])

/-! ## Helper lemmas -/

/-- A byte masked with `0xff` is below 256. -/
theorem land_ff_lt (n : Nat) : n &&& 0xff < 256 :=
  Nat.lt_succ_of_le Nat.and_le_right

/-- A nibble masked with `0xF` is below 16. -/
theorem land_f_lt (n : Nat) : n &&& 0xF < 16 :=
  Nat.lt_succ_of_le Nat.and_le_right

/-- `consume` on a non-finalized CRC32 hasher state: succeeds and folds
the update over the bytes. -/
theorem consume_crc32_active (r : Nat) (c : List Nat) :
    consume crc32HasherImpl ⟨false, r⟩ (some c)
      = (⟨false, crc32ConsumeImpl r c⟩, true) := rfl

/-- Chunk feeding on an active CRC32 hasher equals one fold over the
concatenation of the chunks. -/
theorem feedChunks_active (chunks : List (List Nat)) (r : Nat) :
    feedChunks ⟨false, r⟩ chunks
      = ⟨false, crc32ConsumeImpl r chunks.flatten⟩ := by
  induction chunks generalizing r with
  | nil => rfl
  | cons c cs ih =>
    show feedChunks ⟨false, crc32ConsumeImpl r c⟩ cs = _
    rw [ih, List.flatten_cons]
    unfold crc32ConsumeImpl
    rw [List.foldl_append]

/-! ## Claim theorems -/

/-- C4: for a fresh `Crc32Hasher`, `finalize` writes `register XOR
0xFFFFFFFF` as 4 bytes most-significant byte first, each output byte
masked with `0xFF` (hence below 256); the digest of the empty sequence
is `00 00 00 00`, the digest of the ASCII bytes `"123456789"` is
`CB F4 39 26`, and `digestSize()` is 4. -/
theorem crc32_known_vectors :
    crc32Digest [] = some [0x00, 0x00, 0x00, 0x00] ∧
    crc32Digest [0x31, 0x32, 0x33, 0x34, 0x35, 0x36, 0x37, 0x38, 0x39]
      = some [0xcb, 0xf4, 0x39, 0x26] ∧
    getDigestSize crc32HasherImpl freshCrc32 = 4 ∧
    (∀ r : Nat, ((crc32FinalBytes r).all (fun x => decide (x < 256))) = true) := by
  refine ⟨by decide, by decide, rfl, fun r => ?_⟩
  simp only [crc32FinalBytes, List.all_cons, List.all_nil, Bool.and_true,
    Bool.and_eq_true, decide_eq_true_eq]
  exact ⟨land_ff_lt _, land_ff_lt _, land_ff_lt _, land_ff_lt _⟩

/-- C5: for every byte sequence and every partition of it into
consecutive chunks (empty chunks allowed), feeding the chunks to a
fresh `Crc32Hasher` by repeated `consume` calls and then finalizing
gives the same hasher state and the same digest as a single `consume`
of the concatenation followed by `finalize`. -/
theorem crc32_chunk_invariance (chunks : List (List Nat)) :
    feedChunks freshCrc32 chunks
      = (consume crc32HasherImpl freshCrc32 (some chunks.flatten)).1 ∧
    ∀ buf, finalize crc32HasherImpl (feedChunks freshCrc32 chunks) buf
      = finalize crc32HasherImpl
          (consume crc32HasherImpl freshCrc32 (some chunks.flatten)).1 buf := by
  have h : feedChunks freshCrc32 chunks
      = ⟨false, crc32ConsumeImpl crc32Base chunks.flatten⟩ :=
    feedChunks_active chunks crc32Base
  exact ⟨by rw [h]; rfl, fun buf => by rw [h]; rfl⟩

/-- The table-building round as the specification words it: one step of
`value = (value >> 1) XOR 0xEDB88320` when the low bit is set, else
`value = value >> 1`, in unsigned 32-bit arithmetic. -/
def crc32LutRoundSpec (v : Nat) : Nat :=
  if v % 2 = 1 then ((v / 2) ^^^ 0xEDB88320) % 2 ^ 32 else (v / 2) % 2 ^ 32

set_option maxRecDepth 4096 in
/-- C6: the CRC32 table has exactly 256 entries; entry `i` (for every
`i < 256`) is the result of 8 rounds of the specified step starting
from `i` in unsigned 32-bit arithmetic; and the consume update is
`table[(register XOR b) & 0xFF] XOR (register >> 8)`. -/
theorem crc32Lut_spec :
    crc32Lut.length = 256 ∧
    (∀ i, i < 256 → crc32Lut.getD i 0 = crc32LutRoundSpec^[8] i) ∧
    (∀ r b, crc32Update r b
      = crc32Lut.getD ((r ^^^ b) &&& 0xFF) 0 ^^^ (r >>> 8)) :=
  ⟨by decide, by decide, fun r b => rfl⟩

/-- Witness for C6 at a concrete index. -/
theorem crc32Lut_spec_witness :
    crc32Lut.getD 171 0 = crc32LutRoundSpec^[8] 171 :=
  crc32Lut_spec.2.1 171 (by decide)

/-- `consume` on a finalized hasher returns `false` and changes nothing,
for every implementation. -/
theorem consume_of_finalized {σ : Type} (M : HasherImpl σ)
    (h : HasherState σ) (hf : h.isFinalized = true)
    (d : Option (List Nat)) : consume M h d = (h, false) := by
  cases d with
  | none => rfl
  | some bs => simp [consume, hf]

/-- `finalize` on a finalized hasher returns `false` and changes nothing,
for every implementation. -/
theorem finalize_of_finalized {σ : Type} (M : HasherImpl σ)
    (h : HasherState σ) (hf : h.isFinalized = true)
    (buf : Option (List Nat)) : finalize M h buf = (h, buf, false) := by
  cases buf with
  | none => rfl
  | some b => simp [finalize, hf]

/-- C1 (code bug): `Hasher::reset` never clears `isFinalized_` — it only
calls `resetImpl`, which resets the accumulator.  Concretely: finalize
a fresh `Crc32Hasher` (succeeds), call `reset` (returns `true`), and
the instance still refuses `consume` of the byte `0x31`, although a
freshly constructed instance accepts it.  So the claimed
`Finalized → Active` transition does not exist in the code. -/
theorem reset_does_not_clear_finalized :
    (finalize crc32HasherImpl freshCrc32 (some [0, 0, 0, 0])).2.2 = true ∧
    (reset crc32HasherImpl
      (finalize crc32HasherImpl freshCrc32 (some [0, 0, 0, 0])).1).2 = true ∧
    ((reset crc32HasherImpl
      (finalize crc32HasherImpl freshCrc32 (some [0, 0, 0, 0])).1).1).isFinalized
      = true ∧
    (consume crc32HasherImpl
      (reset crc32HasherImpl
        (finalize crc32HasherImpl freshCrc32 (some [0, 0, 0, 0])).1).1
      (some [0x31])).2 = false ∧
    (consume crc32HasherImpl freshCrc32 (some [0x31])).2 = true := by
  decide

/-- An engine whose `EVP_DigestUpdate` always reports failure,
used to exhibit the dropped boolean in `Hasher::consume`. -/
def failingUpdateEngine : EvpDigestEngine Unit where
  update := fun c _ => (c, false)
  final := fun c => (c, [], false)
  initState := ()
  initOk := true
  mdSize := 32

/-- C2 (code bug): `EvpHasher::consumeImpl` does return the engine's
boolean, but `Hasher::consume` discards it (`consumeImpl(data, count);
return true;`).  With an engine whose update fails, `consumeImpl`
reports `false` yet the caller of `consume` receives `true`, so the
engine's success/failure result is not propagated.  (The other half of
the claim — `consume` returns `false` exactly on a finalized instance
or a null pointer — is what the code does, and is precisely why the
engine result cannot reach the caller.) -/
theorem consume_discards_engine_result :
    ((evpHasherImpl failingUpdateEngine).consumeImpl () [0x61]).2 = false ∧
    (consume (evpHasherImpl failingUpdateEngine) (mkHasher ())
      (some [0x61])).2 = true ∧
    (consume (evpHasherImpl failingUpdateEngine) (mkHasher ()) none).2 = false ∧
    (consume (evpHasherImpl failingUpdateEngine) ⟨true, ()⟩
      (some [0x61])).2 = false :=
  ⟨rfl, rfl, rfl, rfl⟩

/-- `finalize` with a non-null buffer and a failing guard
(already finalized, or capacity below the digest size): nothing happens. -/
theorem finalize_guard_fail {σ : Type} (M : HasherImpl σ)
    (h : HasherState σ) (b : List Nat)
    (hng : ¬(h.isFinalized = false ∧ M.digestSizeImpl h.impl ≤ b.length)) :
    finalize M h (some b) = (h, some b, false) := by
  simp only [finalize]
  rw [if_neg hng]

/-- `finalize` with a passing guard and a succeeding `finalizeImpl`:
marks finalized, writes the impl's bytes, returns `true`. -/
theorem finalize_of_active {σ : Type} (M : HasherImpl σ)
    (h : HasherState σ) (b : List Nat) (hc1 : h.isFinalized = false)
    (hc2 : M.digestSizeImpl h.impl ≤ b.length)
    (hr : (M.finalizeImpl h.impl).2.2 = true) :
    finalize M h (some b) = (⟨true, (M.finalizeImpl h.impl).1⟩,
      some (writeBytes (M.finalizeImpl h.impl).2.1 b), true) := by
  simp only [finalize]
  rw [if_pos ⟨hc1, hc2⟩, if_pos hr]

/-- `finalize` with a passing guard but a failing `finalizeImpl`:
returns `false` and the flag stays clear. -/
theorem finalize_of_implFail {σ : Type} (M : HasherImpl σ)
    (h : HasherState σ) (b : List Nat) (hc1 : h.isFinalized = false)
    (hc2 : M.digestSizeImpl h.impl ≤ b.length)
    (hr : (M.finalizeImpl h.impl).2.2 = false) :
    finalize M h (some b) = (⟨h.isFinalized, (M.finalizeImpl h.impl).1⟩,
      some (writeBytes (M.finalizeImpl h.impl).2.1 b), false) := by
  simp only [finalize]
  rw [if_pos ⟨hc1, hc2⟩, if_neg (by rw [hr]; exact Bool.false_ne_true)]

/-- C3: `finalize` fails with no mutation whatsoever when the instance
is already finalized, when the buffer is null, or when the capacity is
below `digestSize()`; when it succeeds it writes exactly `digestSize()`
bytes at the front of the buffer (the rest untouched), marks the
instance finalized, and every later `consume` or `finalize` fails
without effect.  `hw` is the engine-trust assumption that
`finalizeImpl` writes exactly `digestSize()` bytes (true of
`Crc32Hasher`; assumed of the external engine). -/
theorem finalize_contract {σ : Type} (M : HasherImpl σ) (h : HasherState σ)
    (b : List Nat)
    (hw : ((M.finalizeImpl h.impl).2.1).length = M.digestSizeImpl h.impl) :
    (finalize M h none = (h, none, false)) ∧
    (h.isFinalized = true → finalize M h (some b) = (h, some b, false)) ∧
    (b.length < M.digestSizeImpl h.impl →
      finalize M h (some b) = (h, some b, false)) ∧
    (∀ h2 b2, finalize M h (some b) = (h2, some b2, true) →
      h2.isFinalized = true ∧
      b2.length = b.length ∧
      b2.take (M.digestSizeImpl h.impl) = (M.finalizeImpl h.impl).2.1 ∧
      b2.drop (M.digestSizeImpl h.impl) = b.drop (M.digestSizeImpl h.impl) ∧
      (∀ d, consume M h2 d = (h2, false)) ∧
      (∀ bb, finalize M h2 bb = (h2, bb, false))) := by
  refine ⟨rfl, ?_, ?_, ?_⟩
  · intro hf
    exact finalize_of_finalized M h hf (some b)
  · intro hlt
    exact finalize_guard_fail M h b
      (fun hc => absurd hc.2 (Nat.not_le.mpr hlt))
  · intro h2 b2 heq
    by_cases hc1 : h.isFinalized = false
    · by_cases hc2 : M.digestSizeImpl h.impl ≤ b.length
      · by_cases hr : (M.finalizeImpl h.impl).2.2 = true
        · rw [finalize_of_active M h b hc1 hc2 hr] at heq
          have e1 : (⟨true, (M.finalizeImpl h.impl).1⟩ : HasherState σ)
              = h2 := congrArg Prod.fst heq
          have e2 : some (writeBytes (M.finalizeImpl h.impl).2.1 b)
              = some b2 := congrArg (fun t => t.2.1) heq
          subst e1
          obtain rfl := Option.some.inj e2
          refine ⟨rfl, ?_, ?_, ?_, ?_, ?_⟩
          · simp only [writeBytes, List.length_append, List.length_drop]
            omega
          · rw [← hw]
            exact List.take_left _ _
          · rw [← hw]
            exact List.drop_left _ _
          · intro d
            exact consume_of_finalized M _ rfl d
          · intro bb
            exact finalize_of_finalized M _ rfl bb
        · rw [finalize_of_implFail M h b hc1 hc2
            (Bool.eq_false_iff.mpr hr)] at heq
          exact Bool.noConfusion (congrArg (fun t => t.2.2) heq)
      · rw [finalize_guard_fail M h b (fun hc => absurd hc.2 hc2)] at heq
        exact Bool.noConfusion (congrArg (fun t => t.2.2) heq)
    · rw [finalize_guard_fail M h b (fun hc => absurd hc.1 hc1)] at heq
      exact Bool.noConfusion (congrArg (fun t => t.2.2) heq)

/-- Witness for C3: the CRC32 hasher with a 3-byte buffer (one byte
short of `digestSize() = 4`) fails with nothing written. -/
theorem finalize_contract_witness :
    finalize crc32HasherImpl freshCrc32 (some [0, 0, 0])
      = (freshCrc32, some [0, 0, 0], false) :=
  (finalize_contract crc32HasherImpl freshCrc32 [0, 0, 0]
    (by decide)).2.2.1 (by decide)

/-- C7: constructing an `EvpHasher` with a name the registry does not
recognize yields the invalid-argument error; a recognized name whose
digest-context initialization fails yields the distinct
runtime-initialization error; and every successfully constructed
`EvpHasher` carries a resolved (registry-backed) algorithm identifier,
the supplied name, and an initialized context. -/
theorem evpHasher_construction {μ : Type} (R : EvpRegistry μ)
    (name : String) :
    (R.getDigestByName name = none →
      mkEvpHasher R name = .error (.invalidArgument
        ("unrecognized digest name: \"" ++ name ++ "\""))) ∧
    (∀ md, R.getDigestByName name = some md → R.digestInitOk md = false →
      mkEvpHasher R name = .error (.runtimeError
        "unable to initialize digest context (EVP_DigestInit_ex failed)")) ∧
    (∀ e, mkEvpHasher R name = .ok e →
      ∃ md, R.getDigestByName name = some md ∧ e.digestType = md ∧
        R.digestInitOk md = true ∧ e.ctxInitialized = true ∧
        e.name = name) := by
  refine ⟨?_, ?_, ?_⟩
  · intro hn
    simp [mkEvpHasher, hn]
  · intro md hn hbad
    simp [mkEvpHasher, hn, hbad]
  · intro e he
    cases hn : R.getDigestByName name with
    | none => simp [mkEvpHasher, hn] at he
    | some md =>
      refine ⟨md, rfl, ?_⟩
      by_cases hok : R.digestInitOk md = true
      · simp [mkEvpHasher, hn, hok] at he
        exact ⟨by rw [← he], hok, by rw [← he], by rw [← he]⟩
      · simp only [mkEvpHasher, hn] at he
        rw [if_neg hok] at he
        exact Except.noConfusion he

/-- A concrete test registry: resolves `"sha256"` to an identifier whose
initialization succeeds and `"md9"` to one whose initialization fails;
everything else is unrecognized. -/
def testRegistry : EvpRegistry Nat where
  getDigestByName := fun s =>
    if s = "sha256" then some 0 else if s = "md9" then some 1 else none
  digestInitOk := fun md => md == 0
  mdSize := fun _ => 32

/-- Witness for C7 on the concrete registry: all three construction
outcomes. -/
theorem evpHasher_construction_witness :
    mkEvpHasher testRegistry "bogus" = .error (.invalidArgument
      "unrecognized digest name: \"bogus\"") ∧
    mkEvpHasher testRegistry "md9" = .error (.runtimeError
      "unable to initialize digest context (EVP_DigestInit_ex failed)") ∧
    (∃ md, testRegistry.getDigestByName "sha256" = some md ∧
      (⟨"sha256", 0, true⟩ : EvpHasher Nat).digestType = md ∧
      testRegistry.digestInitOk md = true ∧
      (⟨"sha256", 0, true⟩ : EvpHasher Nat).ctxInitialized = true ∧
      (⟨"sha256", 0, true⟩ : EvpHasher Nat).name = "sha256") :=
  ⟨(evpHasher_construction testRegistry "bogus").1 (by decide),
   (evpHasher_construction testRegistry "md9").2.1 1 (by decide) (by decide),
   (evpHasher_construction testRegistry "sha256").2.2 ⟨"sha256", 0, true⟩ rfl⟩

/-- An engine model on which `EVP_MD_CTX_copy_ex` succeeds on every
valid source context. -/
def alwaysCopyEngine : EvpEngine Nat where
  fresh := 0
  copyOk := fun _ => true

/-- C8 (code bug): `EvpMdCtxWrapper`'s copy-assignment frees
`this->context_`, sets it to `nullptr`, and then calls
`EVP_MD_CTX_copy_ex` with that null pointer as the destination, so the
copy can never succeed and the operator always throws — even between
two perfectly valid wrappers on an engine whose copy succeeds (states
`1` and `2` here).  Copy-construction, by contrast, allocates a fresh
context first and does produce an independent context carrying the
source's state. -/
theorem copyAssign_always_fails :
    evpWrapperCopyAssign alwaysCopyEngine (some 1) (some 2)
      = .error "EVP_MD_CTX_copy_ex failed" ∧
    evpWrapperCopyConstruct alwaysCopyEngine (some 2) = .ok (some 2) :=
  ⟨rfl, rfl⟩

/-! ## Hex helper lemmas -/

/-- Induction on a character list two elements at a time, matching the
two-characters-per-iteration loop of `strToBytes`. -/
theorem twoStepInduction {p : List Char → Prop} (h0 : p [])
    (h1 : ∀ c, p [c])
    (h2 : ∀ c1 c2 rest, p rest → p (c1 :: c2 :: rest)) :
    ∀ s, p s
  | [] => h0
  | [c] => h1 c
  | c1 :: c2 :: rest => h2 c1 c2 rest (twoStepInduction h0 h1 h2 rest)

/-- Unfolding of the `strToBytes` loop on one two-character step. -/
theorem strToBytesLoop_cons (c1 c2 : Char) (s : List Char) :
    strToBytesLoop (c1 :: c2 :: s) =
      if hexDigitValue c1 = -1 ∨ hexDigitValue c2 = -1 then none
      else (strToBytesLoop s).map
        (fun v => (hexDigitValue c1 * 16 + hexDigitValue c2).toNat :: v) :=
  rfl

/-- Unfolding of `bytesToStr` on one byte. -/
theorem bytesToStr_cons (b : Nat) (rest : List Nat) :
    bytesToStr (b :: rest) =
      valueToHexDigit ((b >>> 4) &&& 0xF) ::
      valueToHexDigit (b &&& 0xF) :: bytesToStr rest :=
  rfl

set_option maxRecDepth 8192 in
/-- For every byte below 256, the two hex characters `bytesToStr`
produces are valid hex digits and decode back to the byte. -/
theorem byte_roundtrip : ∀ b, b < 256 →
    (hexDigitValue (valueToHexDigit ((b >>> 4) &&& 0xF)) ≠ -1 ∧
     hexDigitValue (valueToHexDigit (b &&& 0xF)) ≠ -1 ∧
     (hexDigitValue (valueToHexDigit ((b >>> 4) &&& 0xF)) * 16 +
      hexDigitValue (valueToHexDigit (b &&& 0xF))).toNat = b) := by
  decide

/-- Every value below 16 maps to a decimal digit or a lowercase
`a`–`f` character. -/
theorem valueToHexDigit_lower : ∀ n, n < 16 →
    (('0' ≤ valueToHexDigit n ∧ valueToHexDigit n ≤ '9') ∨
     ('a' ≤ valueToHexDigit n ∧ valueToHexDigit n ≤ 'f')) := by
  decide

/-- `bytesToStr` produces two characters per input byte. -/
theorem bytesToStr_length (buf : List Nat) :
    (bytesToStr buf).length = 2 * buf.length := by
  induction buf with
  | nil => rfl
  | cons b rest ih =>
    rw [bytesToStr_cons]
    simp only [List.length_cons, ih]
    omega

/-- The `strToBytes` loop inverts `bytesToStr` on byte lists. -/
theorem strToBytesLoop_bytesToStr (buf : List Nat)
    (hb : ∀ b ∈ buf, b < 256) :
    strToBytesLoop (bytesToStr buf) = some buf := by
  induction buf with
  | nil => rfl
  | cons b rest ih =>
    obtain ⟨h1, h2, h3⟩ := byte_roundtrip b (hb b (List.mem_cons_self b rest))
    rw [bytesToStr_cons, strToBytesLoop_cons,
      if_neg (fun hor => hor.elim h1 h2),
      ih (fun x hx => hb x (List.mem_cons_of_mem b hx))]
    rw [Option.map_some', h3]

/-- On even-length input, the `strToBytes` loop yields no value exactly
when some character is not a hex digit. -/
theorem strToBytesLoop_none_iff :
    ∀ s : List Char, s.length % 2 = 0 →
      (strToBytesLoop s = none ↔ ∃ c ∈ s, hexDigitValue c = -1) := by
  intro s
  induction s using twoStepInduction with
  | h0 =>
    intro _
    simp [strToBytesLoop]
  | h1 c =>
    intro hlen
    simp at hlen
  | h2 c1 c2 rest ih =>
    intro hlen
    have hrest : rest.length % 2 = 0 := by
      simp only [List.length_cons] at hlen
      omega
    rw [strToBytesLoop_cons]
    by_cases hv : hexDigitValue c1 = -1 ∨ hexDigitValue c2 = -1
    · rw [if_pos hv]
      simp only [List.mem_cons, true_iff]
      rcases hv with hv | hv
      · exact ⟨c1, Or.inl rfl, hv⟩
      · exact ⟨c2, Or.inr (Or.inl rfl), hv⟩
    · rw [if_neg hv]
      rw [Option.map_eq_none', ih hrest]
      push_neg at hv
      constructor
      · rintro ⟨c, hc, hcv⟩
        exact ⟨c, List.mem_cons_of_mem c1 (List.mem_cons_of_mem c2 hc), hcv⟩
      · rintro ⟨c, hc, hcv⟩
        rcases List.mem_cons.mp hc with rfl | hc
        · exact absurd hcv hv.1
        · rcases List.mem_cons.mp hc with rfl | hc
          · exact absurd hcv hv.2
          · exact ⟨c, hc, hcv⟩

/-! ## Hex claim theorems -/

/-- C9 (code bug): `valueToHexDigit` asserts `n > 0 && n < 16`, but
`bytesToStr` passes the nibble `0` for any byte with a zero high or
low nibble — already for the single byte `0x00` — so the asserted
condition is violated on reachable inputs and the assertion fires (the
comparison should have been `n >= 0`; the computed character for `0` is
the correct `'0'`, consistent with the function's own documentation
that its domain is `[0, 15]`). -/
theorem bytesToStr_assert_fires_on_zero_nibble :
    (0 ∈ bytesToStrNibbles [0x00]) ∧
    valueToHexDigitAssertCond 0 = false ∧
    valueToHexDigitAssertCond 1 = true ∧
    valueToHexDigit 0 = '0' := by
  decide

/-- C10: for every buffer of bytes, `bytesToStr` yields exactly
`2 * count` characters, all decimal digits or lowercase `a`–`f`;
`strToBytes` maps that string back to the original byte sequence; and
`strToBytes` yields no value exactly when its input has odd length or
contains a character that is not a hex digit. -/
theorem hex_roundtrip (buf : List Nat) (hb : ∀ b ∈ buf, b < 256) :
    (bytesToStr buf).length = 2 * buf.length ∧
    (∀ c ∈ bytesToStr buf,
      ('0' ≤ c ∧ c ≤ '9') ∨ ('a' ≤ c ∧ c ≤ 'f')) ∧
    strToBytes (bytesToStr buf) = some buf ∧
    (∀ s : List Char, strToBytes s = none ↔
      (s.length % 2 = 1 ∨ ∃ c ∈ s, hexDigitValue c = -1)) := by
  refine ⟨bytesToStr_length buf, ?_, ?_, ?_⟩
  · induction buf with
    | nil =>
      intro c hc
      exact absurd hc (List.not_mem_nil c)
    | cons b rest ih =>
      intro c hc
      rw [bytesToStr_cons] at hc
      rcases List.mem_cons.mp hc with rfl | hc
      · exact valueToHexDigit_lower _ (land_f_lt _)
      · rcases List.mem_cons.mp hc with rfl | hc
        · exact valueToHexDigit_lower _ (land_f_lt _)
        · exact ih (fun x hx => hb x (List.mem_cons_of_mem b hx)) c hc
  · have heven : (bytesToStr buf).length % 2 = 0 := by
      rw [bytesToStr_length]
      omega
    rw [strToBytes, if_neg (by omega)]
    exact strToBytesLoop_bytesToStr buf hb
  · intro s
    by_cases hpar : s.length % 2 = 0
    · rw [strToBytes, if_neg (by omega)]
      rw [strToBytesLoop_none_iff s hpar]
      constructor
      · exact fun hx => Or.inr hx
      · rintro (hodd | hx)
        · omega
        · exact hx
    · rw [strToBytes, if_pos (by omega)]
      simp only [true_iff]
      exact Or.inl (by omega)

/-- Witness for C10 on a concrete buffer containing a zero byte. -/
theorem hex_roundtrip_witness :
    strToBytes (bytesToStr [0x00, 0xab, 0xff]) = some [0x00, 0xab, 0xff] :=
  (hex_roundtrip [0x00, 0xab, 0xff] (by decide)).2.2.1

end Xmph
